import Mathlib

/-!
Shallow embedding of the `domocsvexport` pipeline (filename sanitization,
workbook-to-CSV conversion, MIME message assembly, OAuth token exchange,
date-range computation, and the two entry-point control flows), together
with theorems settling the specification claims.

JS strings are modelled as `List Char`; file bytes as `List Nat` (each < 256);
fallible operations as `Except`/`Option`.
-/

namespace Domo

/-- JS `\s` whitespace class (also used by `String.prototype.trim`). -/
def isWs (c : Char) : Bool :=
  c.toNat = 32 || (9 ≤ c.toNat && c.toNat ≤ 13) || c.toNat = 0xa0 ||
  c.toNat = 0x1680 || (0x2000 ≤ c.toNat && c.toNat ≤ 0x200a) ||
  c.toNat = 0x2028 || c.toNat = 0x2029 || c.toNat = 0x202f ||
  c.toNat = 0x205f || c.toNat = 0x3000 || c.toNat = 0xfeff

/-- The character class `[\\/:*?"<>|]` of filesystem-illegal characters. -/
def isIllegalFs (c : Char) : Bool :=
  c = '\\' || c = '/' || c = ':' || c = '*' || c = '?' || c = '"' ||
  c = '<' || c = '>' || c = '|'

/-- The character class `[\\/:*?"<>|\u0000-\u001F]` used by `safeFilename`
(filesystem-illegal characters plus control characters). -/
def isIllegalOrCtl (c : Char) : Bool :=
  isIllegalFs c || c.toNat < 32

/-- `replace(/\s+/g, " ")`: collapse every maximal whitespace run to one space. -/
def collapseWs : List Char → List Char
  | [] => []
  | [c] => if isWs c then [' '] else [c]
  | a :: b :: rest =>
    if isWs a && isWs b then collapseWs (b :: rest)
    else (if isWs a then ' ' else a) :: collapseWs (b :: rest)

/-- `String.prototype.trim()`: drop leading and trailing whitespace. -/
def trimWs (l : List Char) : List Char :=
  ((l.dropWhile isWs).reverse.dropWhile isWs).reverse

/-- `replace(/\.+$/g, "")`: strip trailing dots. -/
def stripTrailingDots (l : List Char) : List Char :=
  (l.reverse.dropWhile (fun c => c = '.')).reverse

/-- `replace(/\.(xlsx?|csv)$/i, "")`: strip one recognized spreadsheet/CSV
extension (case-insensitively) from the end, if present. -/
def stripKnownExt (l : List Char) : List Char :=
  let low := l.map Char.toLower
  if ".xlsx".toList.isSuffixOf low then l.take (l.length - 5)
  else if ".xls".toList.isSuffixOf low then l.take (l.length - 4)
  else if ".csv".toList.isSuffixOf low then l.take (l.length - 4)
  else l

/-- The base-name computation of `safeFilename` (src/domo_export.ts:16-35):
replace illegal/control characters with a space, collapse whitespace, trim,
strip trailing dots, strip a recognized extension, fall back to "export"
when empty, truncate to 180 characters. -/
def safeBase (name : List Char) : List Char :=
  let b1 := name.map (fun c => if isIllegalOrCtl c then ' ' else c)
  let b2 := trimWs (collapseWs b1)
  let b3 := stripTrailingDots b2
  let b4 := stripKnownExt b3
  let b5 := if b4.isEmpty then "export".toList else b4
  b5.take 180

/-- `safeFilename` (src/domo_export.ts:16-38): sanitized base followed by the
caller-supplied final extension. -/
def safeFilename (name finalExt : List Char) : List Char :=
  safeBase name ++ finalExt

/-- Sheet-name sanitization used by `xlsxToCsvFiles` (src/domo_export.ts:60):
`sheetName.replace(/[\\/:*?"<>|]/g, "_").replace(/\s+/g, " ").trim()`. -/
def sanitizeSheetName (s : List Char) : List Char :=
  trimWs (collapseWs (s.map (fun c => if isIllegalFs c then '_' else c)))

/-- The sanitization rule the spec (§4.4, §4.5) says sheet names reuse:
replace each control character and filesystem-illegal character with a single
space, collapse whitespace runs, trim.  Modelled from the spec's words for
comparison with `sanitizeSheetName`. -/
def specSheetRule (s : List Char) : List Char :=
  trimWs (collapseWs (s.map (fun c => if isIllegalOrCtl c then ' ' else c)))

/-- `path.basename`: the final path component (text after the last `/`). -/
def basename (p : List Char) : List Char :=
  (p.reverse.takeWhile (fun c => c ≠ '/')).reverse

/-- `replace(/\.(xlsx?)$/i, "")` as used on the artifact base name in
`xlsxToCsvFiles` (src/domo_export.ts:59): strips `.xls`/`.xlsx` only. -/
def stripXlsxExt (l : List Char) : List Char :=
  let low := l.map Char.toLower
  if ".xlsx".toList.isSuffixOf low then l.take (l.length - 5)
  else if ".xls".toList.isSuffixOf low then l.take (l.length - 4)
  else l

/-- The fixed output directory `exporter/downloads` (src/domo_export.ts:9). -/
def DOWNLOAD_DIR : List Char := "exporter/downloads".toList

/-- A worksheet, modelled as rows of already-formatted cell strings. -/
abbrev Sheet : Type := List (List (List Char))

/-- A workbook: the pairing of `wb.SheetNames` (in native order) with the
corresponding `wb.Sheets[name]` lookups.  Sheet names are unique per workbook. -/
abbrev Workbook : Type := List (List Char × Sheet)

/-- One CSV field under standard CSV quoting: fields containing the delimiter,
quote character, or line breaks are quoted, with embedded quotes doubled. -/
def csvField (f : List Char) : List Char :=
  if f.any (fun c => c = ',' || c = '"' || c = '\n' || c = '\r') then
    '"' :: (f.flatMap fun c => if c = '"' then ['"', '"'] else [c]) ++ ['"']
  else f

/-- `XLSX.utils.sheet_to_csv`: rows joined with newlines, fields with commas. -/
def sheet_to_csv (ws : Sheet) : List Char :=
  List.intercalate ['\n'] (ws.map fun row => List.intercalate [','] (row.map csvField))

/-- Output path for one sheet: `path.join(DOWNLOAD_DIR, base + " - " + safeSheet + ".csv")`
with `base` the artifact base name (src/domo_export.ts:59-61). -/
def csvOutPath (xlsxPath sheetName : List Char) : List Char :=
  DOWNLOAD_DIR ++ '/' :: (stripXlsxExt (basename xlsxPath) ++ " - ".toList ++
    sanitizeSheetName sheetName ++ ".csv".toList)

/-- The `for (const sheetName of wb.SheetNames)` loop of `xlsxToCsvFiles`
(src/domo_export.ts:56-64), accumulating the written `(path, csv)` pairs in
loop order. -/
def xlsxToCsvLoop (xlsxPath : List Char) :
    List (List Char × Sheet) → List (List Char × List Char) → List (List Char × List Char)
  | [], out => out
  | (nm, ws) :: rest, out =>
    xlsxToCsvLoop xlsxPath rest (out ++ [(csvOutPath xlsxPath nm, sheet_to_csv ws)])

/-- `xlsxToCsvFiles` (src/domo_export.ts:53-66): the returned `outFiles` list
of CSV paths, one appended per sheet of the workbook. -/
def xlsxToCsvFiles (xlsxPath : List Char) (wb : Workbook) : List (List Char) :=
  (xlsxToCsvLoop xlsxPath wb []).map Prod.fst

/-- An attachment reference `{ filename, path }` (src/domo_export.ts:71). -/
structure AttRef where
  filename : List Char
  path : List Char
deriving DecidableEq

/-- The options record passed to `sendWithGmailAPI` (src/mailer_gmail.ts:5-11). -/
structure SendOpts where
  fromAddr : List Char
  toAddr : List Char
  subject : List Char
  text : List Char
  attachments : List AttRef
deriving DecidableEq

/-- The email-related environment configuration (src/domo_export.ts:10-13). -/
structure EmailCfg where
  user : List Char
  toAddr : List Char
  subject : List Char
  body : List Char

/-- `emailCsvs` (src/domo_export.ts:68-79): returns early (no message) when
there are no CSV paths; otherwise the `SendOpts` handed to `sendWithGmailAPI`.
`none` models the early `return` with no message sent. -/
def emailCsvs (cfg : EmailCfg) (csvPaths : List (List Char)) : Option SendOpts :=
  if csvPaths.length = 0 then none
  else some
    { fromAddr := cfg.user
      toAddr := cfg.toAddr
      subject := cfg.subject
      text := cfg.body
      attachments := csvPaths.map fun p => { filename := basename p, path := p } }

/-- An OAuth token-endpoint HTTP response, as consumed by
`getGmailAccessToken` (src/domo_export.ts:207-221). -/
structure TokenResponse where
  ok : Bool
  status : Nat
  statusText : List Char
  bodyText : List Char
  accessToken : Option (List Char)

/-- `getGmailAccessToken` (src/domo_export.ts:199-228) as a function of the
token-endpoint response: on a non-ok response it throws
`Failed to fetch Gmail access token: <status> <statusText> - <body>`; on an
ok response missing `access_token` it throws; otherwise it returns the token. -/
def getGmailAccessToken (r : TokenResponse) : Except (List Char) (List Char) :=
  if r.ok then
    match r.accessToken with
    | some t => Except.ok t
    | none => Except.error "Gmail token response did not include access_token".toList
  else
    Except.error ("Failed to fetch Gmail access token: ".toList ++
      (Nat.repr r.status).toList ++ [' '] ++ r.statusText ++ " - ".toList ++ r.bodyText)

/-- Civil-calendar conversion: day number since 1970-01-01 to `(year, month, day)`
(proleptic Gregorian, floor division). -/
def civilFromDays (z0 : ℤ) : ℤ × ℤ × ℤ :=
  let z := z0 + 719468
  let era := z / 146097
  let doe := z - era * 146097
  let yoe := (doe - doe / 1460 + doe / 36524 - doe / 146096) / 365
  let y := yoe + era * 400
  let doy := doe - (365 * yoe + yoe / 4 - yoe / 100)
  let mp := (5 * doy + 2) / 153
  let d := doy - (153 * mp + 2) / 5 + 1
  let m := if mp < 10 then mp + 3 else mp - 9
  (if m ≤ 2 then y + 1 else y, m, d)

/-- Civil-calendar conversion: `(year, month, day)` to day number since 1970-01-01. -/
def daysFromCivil (y m d : ℤ) : ℤ :=
  let y' := if m ≤ 2 then y - 1 else y
  let era := y' / 400
  let yoe := y' - era * 400
  let mp := if 2 < m then m - 3 else m + 9
  let doy := (153 * mp + 2) / 5 + d - 1
  let doe := yoe * 365 + yoe / 4 - yoe / 100 + doy
  era * 146097 + doe - 719468

/-- A JS `Date` at day granularity (UTC): the day number since the epoch.
This is the `Date` object's internal timestamp, divided down to days. -/
abbrev JsDate : Type := ℤ

/-- JS `date.getDate()`: the day-of-month of the date. -/
def getDate (n : JsDate) : ℤ := (civilFromDays n).2.2

/-- JS `date.getDay()`: the weekday, 0 = Sunday … 6 = Saturday
(1970-01-01 was a Thursday, weekday 4). -/
def getDay (n : JsDate) : ℤ := (n + 4) % 7

/-- JS `date.setDate(k)`: set the day-of-month to `k` (with overflow and
underflow normalized into adjacent months), i.e. shift the timestamp by
`k - getDate` days. -/
def setDate (n : JsDate) (k : ℤ) : JsDate := n + (k - getDate n)

/-- Zero-pad a month or day component to two digits. -/
def pad2 (n : ℤ) : String :=
  if n < 10 then "0" ++ Nat.repr n.toNat else Nat.repr n.toNat

/-- `toISOString().split('T')[0]`: format a date as `YYYY-MM-DD`. -/
def formatDate (n : JsDate) : String :=
  let c := civilFromDays n
  Nat.repr c.1.toNat ++ "-" ++ pad2 c.2.1 ++ "-" ++ pad2 c.2.2

/-- `getPreviousMondayAndSunday` (src/domo_export.ts:293-310) as a function of
the current date: go back to this week's Monday (`setDate(getDate - getDay + 1)`),
back one more week (`setDate(getDate - 7)`), and take that Monday plus six days
as the Sunday; format both as `YYYY-MM-DD`. -/
def getPreviousMondayAndSunday (today : JsDate) : String × String :=
  let lastMonday₁ := setDate today (getDate today - getDay today + 1)
  let lastMonday := setDate lastMonday₁ (getDate lastMonday₁ - 7)
  let lastSunday := setDate lastMonday (getDate lastMonday + 6)
  (formatDate lastMonday, formatDate lastSunday)

/-- The day number of the Monday beginning the Monday-through-Sunday week
that contains `n` (the previous-or-same Monday). -/
def mondayOfWeek (n : JsDate) : JsDate :=
  n - (getDay n + 6) % 7

/-- The standard base64 alphabet. -/
def b64Alphabet : List Char :=
  "ABCDEFGHIJKLMNOPQRSTUVWXYZabcdefghijklmnopqrstuvwxyz0123456789+/".toList

/-- The base64 character for a 6-bit value. -/
def b64Chr (i : Nat) : Char := b64Alphabet.getD i 'A'

/-- The 6-bit value of a base64 character. -/
def b64Val (c : Char) : Nat := b64Alphabet.indexOf c

/-- `Buffer.toString("base64")`: encode bytes in 3-byte groups into 4
alphabet characters, padding the final partial group with `=`. -/
def b64e : List Nat → List Char
  | [] => []
  | [b1] => [b64Chr (b1 / 4), b64Chr (b1 % 4 * 16), '=', '=']
  | [b1, b2] => [b64Chr (b1 / 4), b64Chr (b1 % 4 * 16 + b2 / 16), b64Chr (b2 % 16 * 4), '=']
  | b1 :: b2 :: b3 :: rest =>
    b64Chr (b1 / 4) :: b64Chr (b1 % 4 * 16 + b2 / 16) ::
    b64Chr (b2 % 16 * 4 + b3 / 64) :: b64Chr (b3 % 64) :: b64e rest

/-- Standard base64 decoding of 4-character groups, honoring `=` padding. -/
def b64d : List Char → List Nat
  | c1 :: c2 :: c3 :: c4 :: rest =>
    if c3 = '=' then [b64Val c1 * 4 + b64Val c2 / 16]
    else if c4 = '=' then
      [b64Val c1 * 4 + b64Val c2 / 16, b64Val c2 % 16 * 16 + b64Val c3 / 4]
    else
      (b64Val c1 * 4 + b64Val c2 / 16) :: (b64Val c2 % 16 * 16 + b64Val c3 / 4) ::
      (b64Val c3 % 4 * 64 + b64Val c4) :: b64d rest
  | _ => []

/-- `replace(/(.{76})/g, "$1\n")` (src/mailer_gmail.ts:34): insert a newline
after every 76 characters. -/
def wrap76 (s : List Char) : List Char :=
  if s.length < 76 then s
  else s.take 76 ++ '\n' :: wrap76 (s.drop 76)
termination_by s.length
decreasing_by simp [List.length_drop]; omega

/-- Strip the newlines inserted by `wrap76` (what a base64 decoder ignores). -/
def stripNewlines (s : List Char) : List Char :=
  s.filter fun c => !(c == '\n')

/-- `toBase64Url` (src/mailer_gmail.ts:13-17): base64, with `+` and `/`
replaced by `-` and `_`, and trailing `=` padding stripped. -/
def toBase64Url (bytes : List Nat) : List Char :=
  let m := (b64e bytes).map fun c => if c = '+' then '-' else if c = '/' then '_' else c
  (m.reverse.dropWhile (fun c => c = '=')).reverse

/-- The MIME boundary `"mixed_" + <random suffix>` (src/mailer_gmail.ts:20),
with the random suffix a parameter. -/
def boundaryOf (suffix : List Char) : List Char := "mixed_".toList ++ suffix

/-- A `--<boundary>` part-delimiter line. -/
def delim (suffix : List Char) : List Char := "--".toList ++ boundaryOf suffix

/-- Attachment content type (src/mailer_gmail.ts:35-37): `text/csv` for `.csv`
filenames, else `application/octet-stream`. -/
def mimeOf (filename : List Char) : List Char :=
  if ".csv".toList.isSuffixOf (filename.map Char.toLower) then "text/csv".toList
  else "application/octet-stream".toList

/-- The lines pushed for one attachment (src/mailer_gmail.ts:32-42), with the
file system modelled as a map from paths to byte lists. -/
def attLines (fsys : List Char → List Nat) (suffix : List Char) (att : AttRef) :
    List (List Char) :=
  [delim suffix,
   "Content-Type: ".toList ++ mimeOf att.filename ++ "; name=\"".toList ++ att.filename ++ ['"'],
   "Content-Transfer-Encoding: base64".toList,
   "Content-Disposition: attachment; filename=\"".toList ++ att.filename ++ ['"'],
   [],
   wrap76 (b64e (fsys att.path)),
   []]

/-- The `lines` list assembled by `buildRawMessage` (src/mailer_gmail.ts:19-49)
before being joined with CRLF: headers, then either a single text part or a
multipart/mixed structure with the text part first and one part per attachment. -/
def buildLines (fsys : List Char → List Nat) (suffix : List Char) (o : SendOpts) :
    List (List Char) :=
  let headers := ["From: ".toList ++ o.fromAddr, "To: ".toList ++ o.toAddr,
    "Subject: ".toList ++ o.subject, "MIME-Version: 1.0".toList]
  if o.attachments.isEmpty then
    headers ++ ["Content-Type: text/plain; charset=\"utf-8\"".toList, [], o.text]
  else
    headers ++
    ["Content-Type: multipart/mixed; boundary=\"".toList ++ boundaryOf suffix ++ ['"'],
     [], delim suffix,
     "Content-Type: text/plain; charset=\"utf-8\"".toList, [], o.text, []] ++
    o.attachments.flatMap (attLines fsys suffix) ++
    [delim suffix ++ "--".toList]

/-- `buildRawMessage` (src/mailer_gmail.ts:19-51): the assembled lines joined
with CRLF and base64url-encoded (character codes standing in for the UTF-8
bytes of the ASCII message text). -/
def buildRawMessage (fsys : List Char → List Nat) (suffix : List Char) (o : SendOpts) :
    List Char :=
  toBase64Url ((List.intercalate "\r\n".toList (buildLines fsys suffix o)).map Char.toNat)

/-- Count the occurrences of a part-delimiter line among the message lines. -/
def countLine (target : List Char) : List (List Char) → Nat
  | [] => 0
  | l :: ls => (if l = target then 1 else 0) + countLine target ls

/-- Observable events of one run: browser launch, the awaited pipeline stages
(navigation, download/convert, email), browser closure, an error logged by a
catch handler, and the process exit code. -/
inductive Ev where
  | launch : Ev
  | work : Nat → Ev
  | close : Ev
  | logError : Ev
  | exitCode : Nat → Ev
deriving DecidableEq

/-- The steps of the first entry variant's async body (src/domo_export.ts:82-145):
launch the browser, navigate/login, convert the captured workbooks, email the
CSVs, then `browser.close()`. -/
def stepsV1 : List Ev := [Ev.launch, Ev.work 0, Ev.work 1, Ev.work 2, Ev.close]

/-- The first entry variant (src/domo_export.ts:82-150): the body runs to
completion (implicit exit 0), or rejects at step `i`, in which case the
`.catch` handler logs the error and calls `process.exit(1)` — without closing
the browser. -/
def traceV1 : Option (Fin 5) → List Ev
  | none => stepsV1 ++ [Ev.exitCode 0]
  | some i => stepsV1.take i ++ [Ev.logError, Ev.exitCode 1]

/-- The `try` body of the second entry variant's `main` (src/domo_export.ts:317-377):
login, navigate and download, convert, send — all after the browser launch and
all covered by the `catch`/`finally`. -/
def stepsV2 : List Ev := [Ev.work 0, Ev.work 1, Ev.work 2, Ev.work 3]

/-- The second entry variant (src/domo_export.ts:312-387): launch, then
`try { steps } catch { log; rethrow } finally { browser.close() }`, with the
top level `main().catch(console.error)` logging any rethrown error, after
which the process exits 0. -/
def traceV2 : Option (Fin 4) → List Ev
  | none => Ev.launch :: stepsV2 ++ [Ev.close, Ev.exitCode 0]
  | some i => Ev.launch :: stepsV2.take i ++ [Ev.logError, Ev.close, Ev.logError, Ev.exitCode 0]

/-- The process exit code recorded in a trace (the last `exitCode` event). -/
def exitCodeOf (t : List Ev) : Option Nat :=
  t.reverse.findSome? fun e =>
    match e with
    | Ev.exitCode n => some n
    | _ => none

/-- The structural properties claimed of the composed message: with zero
attachments the assembled lines form the single-part text/plain entity; with
one or more attachments the number of `--boundary` part delimiters equals the
number of attachments plus one and the first delimited part is the text body;
and each attachment part's base64 payload line decodes back to exactly the
attachment's bytes. -/
def MessageParts (fsys : List Char → List Nat) (suffix : List Char) (o : SendOpts) : Prop :=
  (o.attachments = [] →
    buildLines fsys suffix o =
      ["From: ".toList ++ o.fromAddr, "To: ".toList ++ o.toAddr,
       "Subject: ".toList ++ o.subject, "MIME-Version: 1.0".toList,
       "Content-Type: text/plain; charset=\"utf-8\"".toList, [], o.text])
  ∧ (o.attachments ≠ [] →
      countLine (delim suffix) (buildLines fsys suffix o) = o.attachments.length + 1
      ∧ ∃ pre post, buildLines fsys suffix o =
          pre ++ ([delim suffix,
            "Content-Type: text/plain; charset=\"utf-8\"".toList, [], o.text, []] ++ post)
          ∧ delim suffix ∉ pre)
  ∧ (∀ att ∈ o.attachments,
      wrap76 (b64e (fsys att.path)) ∈ buildLines fsys suffix o
      ∧ b64d (stripNewlines (wrap76 (b64e (fsys att.path)))) = fsys att.path)

/-! ### Helper lemmas about the sanitizer's string operations -/

theorem all_of_subset {p : Char → Bool} {l₁ l₂ : List Char} (hsub : l₂ ⊆ l₁)
    (h : l₁.all p = true) : l₂.all p = true := by
  rw [List.all_eq_true] at h ⊢
  exact fun c hc => h c (hsub hc)

theorem all_collapseWs {p : Char → Bool} (hsp : p ' ' = true) :
    ∀ {l : List Char}, l.all p = true → (collapseWs l).all p = true := by
  intro l
  induction l with
  | nil => intro _; simp [collapseWs]
  | cons a rest ih =>
    intro h
    rw [List.all_cons, Bool.and_eq_true] at h
    match rest with
    | [] =>
      rw [collapseWs]
      split
      · simpa using hsp
      · simpa using h.1
    | b :: rest₂ =>
      rw [collapseWs]
      split
      · exact ih h.2
      · rw [List.all_cons, Bool.and_eq_true]
        refine ⟨?_, ih h.2⟩
        split
        · exact hsp
        · exact h.1

theorem trimWs_subset (l : List Char) : trimWs l ⊆ l := by
  intro c hc
  rw [trimWs, List.mem_reverse] at hc
  have hc₂ := (List.dropWhile_sublist isWs).subset hc
  rw [List.mem_reverse] at hc₂
  exact (List.dropWhile_sublist isWs).subset hc₂

theorem stripTrailingDots_subset (l : List Char) : stripTrailingDots l ⊆ l := by
  intro c hc
  rw [stripTrailingDots, List.mem_reverse] at hc
  have hc₂ := (List.dropWhile_sublist _).subset hc
  rwa [List.mem_reverse] at hc₂

theorem stripKnownExt_subset (l : List Char) : stripKnownExt l ⊆ l := by
  rw [stripKnownExt]
  split
  · exact List.take_subset _ _
  · split
    · exact List.take_subset _ _
    · split
      · exact List.take_subset _ _
      · exact fun c hc => hc

theorem safeBase_all_clean (name : List Char) :
    (safeBase name).all (fun c => !isIllegalOrCtl c) = true := by
  rw [safeBase]
  apply all_of_subset (List.take_subset _ _)
  split
  · decide
  · apply all_of_subset (stripKnownExt_subset _)
    apply all_of_subset (stripTrailingDots_subset _)
    apply all_of_subset (trimWs_subset _)
    apply all_collapseWs (by decide)
    rw [List.all_map, List.all_eq_true]
    intro c _
    by_cases hc : isIllegalOrCtl c = true
    · simp only [Function.comp_apply, hc, if_true]
      decide
    · simp [Function.comp, hc]

theorem safeBase_ne_nil (name : List Char) : safeBase name ≠ [] := by
  rw [safeBase, Ne, List.take_eq_nil_iff]
  push_neg
  refine ⟨by omega, ?_⟩
  split
  · decide
  · rename_i hne
    simpa [List.isEmpty_iff] using hne

theorem safeBase_length_le (name : List Char) : (safeBase name).length ≤ 180 := by
  rw [safeBase]
  exact List.length_take_le _ _

/-- C1 (amended): for every suggested name and requested extension,
`safeFilename` returns the sanitized base — which contains no control
characters, no path separators and none of `:*?"<>|`, is non-empty, and is at
most 180 characters — followed by the requested extension; the total length
is therefore at most 180 plus the extension's length (185 for the default
`.xlsx`, not 184). -/
theorem safeFilename_sanitized (name ext : List Char) :
    (safeBase name).all (fun c => !isIllegalOrCtl c) = true ∧
    safeBase name ≠ [] ∧
    (safeBase name).length ≤ 180 ∧
    ext <:+ safeFilename name ext ∧
    safeFilename name ext ≠ [] ∧
    (safeFilename name ext).length ≤ 180 + ext.length := by
  refine ⟨safeBase_all_clean name, safeBase_ne_nil name, safeBase_length_le name,
    ⟨safeBase name, rfl⟩, ?_, ?_⟩
  · rw [safeFilename, Ne, List.append_eq_nil]
    exact fun h => safeBase_ne_nil name h.1
  · rw [safeFilename, List.length_append]
    have := safeBase_length_le name
    omega

set_option maxRecDepth 4000 in
/-- C1 counterexample: a 181-character suggested name with the default
`.xlsx` extension yields a 185-character result, so the claimed total bound
of 184 characters fails. -/
theorem safeFilename_length_counterexample :
    (safeFilename (List.replicate 181 'a') ".xlsx".toList).length = 185 ∧
    ¬ (safeFilename (List.replicate 181 'a') ".xlsx".toList).length ≤ 184 := by
  constructor
  · decide
  · decide

/-- C7 counterexample: the sheet-name sanitization replaces `:` with an
underscore where the filename sanitizer's rule (spec §4.4) puts a space, and
it leaves control characters (here `\x01`) in place where the §4.4 rule
replaces them. -/
theorem sanitizeSheetName_differs_counterexample :
    sanitizeSheetName "a:b".toList = "a_b".toList ∧
    specSheetRule "a:b".toList = "a b".toList ∧
    sanitizeSheetName "a:b".toList ≠ specSheetRule "a:b".toList ∧
    sanitizeSheetName ['a', '\x01', 'b'] = ['a', '\x01', 'b'] ∧
    specSheetRule ['a', '\x01', 'b'] = ['a', ' ', 'b'] := by
  refine ⟨by decide, by decide, by decide, by decide, by decide⟩

/-- C7 (amended): the sheet-name sanitization replaces each of `\/:*?"<>|`
with an underscore (not a space) and does not strip control characters, then
collapses whitespace runs and trims; consequently its output contains none of
the filesystem-illegal characters, and on inputs free of illegal and control
characters it agrees with the §4.4 rule. -/
theorem sanitizeSheetName_amended (s : List Char) :
    (sanitizeSheetName s).all (fun c => !isIllegalFs c) = true ∧
    (s.all (fun c => !isIllegalOrCtl c) = true → sanitizeSheetName s = specSheetRule s) := by
  constructor
  · rw [sanitizeSheetName]
    apply all_of_subset (trimWs_subset _)
    apply all_collapseWs (by decide)
    rw [List.all_map, List.all_eq_true]
    intro c _
    by_cases hc : isIllegalFs c = true
    · simp only [Function.comp_apply, hc, if_true]
      decide
    · simp [Function.comp, hc]
  · intro h
    rw [List.all_eq_true] at h
    rw [sanitizeSheetName, specSheetRule]
    congr 2
    apply List.map_congr_left
    intro c hc
    have hcc := h c hc
    have h₁ : isIllegalFs c = false := by
      revert hcc
      rw [isIllegalOrCtl]
      cases isIllegalFs c <;> simp
    have h₂ : isIllegalOrCtl c = false := by
      revert hcc
      cases isIllegalOrCtl c <;> simp
    rw [h₁, h₂]
    simp

/-- C7 amended-theorem witness at a concrete clean sheet name. -/
theorem sanitizeSheetName_amended_witness :
    ("Sheet 1".toList.all (fun c => !isIllegalOrCtl c) = true) ∧
    sanitizeSheetName "Sheet 1".toList = specSheetRule "Sheet 1".toList :=
  ⟨by decide, (sanitizeSheetName_amended "Sheet 1".toList).2 (by decide)⟩

/-! ### Date-range computation -/

/-- C6: when the current date is Wednesday 2024-03-13 (weekday 3), the default
date range computation returns start `2024-03-04` and end `2024-03-10`, the
Monday-through-Sunday week immediately preceding the current one. -/
theorem previousMondayAndSunday_on_wednesday :
    getDay (daysFromCivil 2024 3 13) = 3 ∧
    getPreviousMondayAndSunday (daysFromCivil 2024 3 13) = ("2024-03-04", "2024-03-10") ∧
    daysFromCivil 2024 3 4 = daysFromCivil 2024 3 13 - 9 ∧
    daysFromCivil 2024 3 10 = daysFromCivil 2024 3 13 - 3 := by
  refine ⟨by decide, by decide, by decide, by decide⟩

/-- C10: for every execution date falling on a Sunday (`getDay` = 0),
`getPreviousMondayAndSunday` returns the Monday of the Monday-through-Sunday
week containing the execution date as the start and the execution date itself
as the end — the current week, not the week immediately preceding it. -/
theorem previousMondayAndSunday_on_sunday (n : JsDate) (h : getDay n = 0) :
    getPreviousMondayAndSunday n = (formatDate (mondayOfWeek n), formatDate n) ∧
    mondayOfWeek n = n - 6 ∧
    getDay (mondayOfWeek n) = 1 := by
  have hmw : mondayOfWeek n = n - 6 := by
    rw [mondayOfWeek, h]
    norm_num
  have e1 : setDate n (getDate n - getDay n + 1) = n + 1 := by
    rw [setDate, h]; ring
  have e2 : setDate (n + 1) (getDate (n + 1) - 7) = n - 6 := by
    rw [setDate]; ring
  have e3 : setDate (n - 6) (getDate (n - 6) + 6) = n := by
    rw [setDate]; ring
  refine ⟨?_, hmw, ?_⟩
  · rw [getPreviousMondayAndSunday]
    rw [e1, e2, e3, hmw]
  · rw [hmw, getDay]
    rw [getDay] at h
    omega

/-- C10 witness: Sunday 2024-03-10. -/
theorem previousMondayAndSunday_on_sunday_witness :
    getDay (daysFromCivil 2024 3 10) = 0 ∧
    (getPreviousMondayAndSunday (daysFromCivil 2024 3 10) =
      (formatDate (mondayOfWeek (daysFromCivil 2024 3 10)), formatDate (daysFromCivil 2024 3 10)) ∧
     mondayOfWeek (daysFromCivil 2024 3 10) = daysFromCivil 2024 3 10 - 6 ∧
     getDay (mondayOfWeek (daysFromCivil 2024 3 10)) = 1) :=
  ⟨by decide, previousMondayAndSunday_on_sunday (daysFromCivil 2024 3 10) (by decide)⟩

/-! ### Workbook conversion -/

theorem xlsxToCsvLoop_eq (p : List Char) (wb : Workbook) :
    ∀ acc, xlsxToCsvLoop p wb acc =
      acc ++ wb.map (fun s => (csvOutPath p s.1, sheet_to_csv s.2)) := by
  induction wb with
  | nil => intro acc; simp [xlsxToCsvLoop]
  | cons s rest ih =>
    intro acc
    rw [show xlsxToCsvLoop p (s :: rest) acc =
      xlsxToCsvLoop p rest (acc ++ [(csvOutPath p s.1, sheet_to_csv s.2)]) from rfl]
    rw [ih, List.map_cons, List.append_assoc]
    rfl

/-- C2: converting a workbook produces exactly one CSV output per worksheet,
and the returned list of CSV paths is the per-sheet output path for each
sheet, in the workbook's original sheet order; in particular the number of
outputs equals the number of sheets. -/
theorem xlsxToCsvFiles_one_per_sheet (p : List Char) (wb : Workbook) :
    xlsxToCsvFiles p wb = wb.map (fun s => csvOutPath p s.1) ∧
    (xlsxToCsvFiles p wb).length = wb.length := by
  constructor
  · rw [xlsxToCsvFiles, xlsxToCsvLoop_eq]
    simp
  · rw [xlsxToCsvFiles, xlsxToCsvLoop_eq]
    simp

/-! ### Mailing the produced CSV files -/

/-- C4 counterexample: with zero CSV paths, `emailCsvs` returns without
composing or sending any message — the message is silently dropped. -/
theorem emailCsvs_empty_counterexample :
    emailCsvs ⟨"u@example.com".toList, "t@example.com".toList,
      "DOMO export".toList, "Attached CSV exports.".toList⟩ [] = none := by
  rfl

/-- C4 (amended): `emailCsvs` sends a message exactly when at least one CSV
path was produced; with zero CSV files it returns early and no message is
sent, and when a message is sent its body is the configured body text (no
absence note is ever added). -/
theorem emailCsvs_sends_iff_nonempty (cfg : EmailCfg) (csvPaths : List (List Char)) :
    (emailCsvs cfg csvPaths).isSome = !csvPaths.isEmpty ∧
    (emailCsvs cfg csvPaths).elim True (fun m => m.text = cfg.body ∧
      m.attachments.length = csvPaths.length) := by
  match csvPaths with
  | [] => simp [emailCsvs, Option.elim]
  | q :: qs => simp [emailCsvs, Option.elim]

/-! ### OAuth token exchange -/

/-- C5 counterexample: a 401 token-endpoint response with body `SECRET_BODY`
produces an error whose message includes the raw response body, so the claim
that the error never includes the response body fails. -/
theorem getGmailAccessToken_leaks_body :
    getGmailAccessToken ⟨false, 401, "Unauthorized".toList, "SECRET_BODY".toList, none⟩ =
      Except.error "Failed to fetch Gmail access token: 401 Unauthorized - SECRET_BODY".toList ∧
    "SECRET_BODY".toList <:+:
      "Failed to fetch Gmail access token: 401 Unauthorized - SECRET_BODY".toList := by
  constructor
  · rfl
  · decide

/-- C5 (amended): every non-success token-endpoint response makes
`getGmailAccessToken` fail with an error whose message carries the HTTP status
code — and also the status text and the raw response body. -/
theorem getGmailAccessToken_error_contents (r : TokenResponse) (h : r.ok = false) :
    ∃ m, getGmailAccessToken r = Except.error m ∧
      (Nat.repr r.status).toList <:+: m ∧
      r.statusText <:+: m ∧
      r.bodyText <:+: m := by
  refine ⟨"Failed to fetch Gmail access token: ".toList ++ (Nat.repr r.status).toList ++
    [' '] ++ r.statusText ++ " - ".toList ++ r.bodyText, ?_, ?_, ?_, ?_⟩
  · rw [getGmailAccessToken, h]
    simp [List.append_assoc]
  · exact ⟨"Failed to fetch Gmail access token: ".toList,
      [' '] ++ r.statusText ++ " - ".toList ++ r.bodyText, by simp⟩
  · exact ⟨"Failed to fetch Gmail access token: ".toList ++ (Nat.repr r.status).toList ++ [' '],
      " - ".toList ++ r.bodyText, by simp⟩
  · exact ⟨"Failed to fetch Gmail access token: ".toList ++ (Nat.repr r.status).toList ++
      [' '] ++ r.statusText ++ " - ".toList, [], by simp⟩

/-- C5 amended-theorem witness at a concrete 401 response. -/
theorem getGmailAccessToken_error_contents_witness :
    (TokenResponse.ok ⟨false, 401, "Unauthorized".toList, "oops".toList, none⟩ = false) ∧
    (∃ m, getGmailAccessToken ⟨false, 401, "Unauthorized".toList, "oops".toList, none⟩ =
        Except.error m ∧
      (Nat.repr 401).toList <:+: m ∧
      "Unauthorized".toList <:+: m ∧
      "oops".toList <:+: m) :=
  ⟨rfl, getGmailAccessToken_error_contents ⟨false, 401, "Unauthorized".toList,
    "oops".toList, none⟩ rfl⟩

/-! ### Process exit codes and browser-session teardown -/

/-- C8 counterexample: in the second entry variant a pipeline failure (here at
the second stage) is logged by `main().catch(console.error)` and the process
exits 0, so the claimed nonzero exit on every pipeline failure fails. -/
theorem exitCode_variant2_counterexample :
    exitCodeOf (traceV2 (some 1)) = some 0 ∧ Ev.logError ∈ traceV2 (some 1) := by
  exact ⟨by decide, by decide⟩

/-- C8 (amended): the first entry variant exits 1 on every pipeline failure
and 0 on success, but the second entry variant's top-level catch handler only
logs, so that variant exits 0 on every run, failed or not. -/
theorem exitCode_amended :
    (∀ o : Option (Fin 5), exitCodeOf (traceV1 o) = some (if o.isSome then 1 else 0)) ∧
    (∀ o : Option (Fin 4), exitCodeOf (traceV2 o) = some 0) := by
  exact ⟨by decide, by decide⟩

/-- C9 counterexample: in the first entry variant a failure after the browser
launch (here at the first navigation step) reaches the catch handler, which
logs and exits without ever closing the browser — the session leaks. -/
theorem browserClose_variant1_counterexample :
    Ev.launch ∈ traceV1 (some 1) ∧
    Ev.close ∉ traceV1 (some 1) ∧
    Ev.logError ∈ traceV1 (some 1) := by
  exact ⟨by decide, by decide, by decide⟩

/-- C9 (amended): the second entry variant closes the browser in its `finally`
block on every exit path — before the error, if any, is surfaced to the
top-level caller — whereas the first variant closes the browser only on the
success path. -/
theorem browserClose_amended :
    (∀ o : Option (Fin 4), ∃ pre, traceV2 o =
      pre ++ Ev.close :: (if o.isSome then [Ev.logError, Ev.exitCode 0] else [Ev.exitCode 0])) ∧
    (∃ pre, traceV1 none = pre ++ [Ev.close, Ev.exitCode 0]) := by
  constructor
  · intro o
    rcases o with _ | i
    · exact ⟨[Ev.launch, Ev.work 0, Ev.work 1, Ev.work 2, Ev.work 3], by decide⟩
    · fin_cases i
      · exact ⟨[Ev.launch, Ev.logError], by decide⟩
      · exact ⟨[Ev.launch, Ev.work 0, Ev.logError], by decide⟩
      · exact ⟨[Ev.launch, Ev.work 0, Ev.work 1, Ev.logError], by decide⟩
      · exact ⟨[Ev.launch, Ev.work 0, Ev.work 1, Ev.work 2, Ev.logError], by decide⟩
  · exact ⟨[Ev.launch, Ev.work 0, Ev.work 1, Ev.work 2], by decide⟩

/-! ### Base64 and MIME message assembly -/

theorem b64Chr_spec : ∀ i : Nat, i < 64 →
    b64Val (b64Chr i) = i ∧ b64Chr i ≠ '=' ∧ b64Chr i ≠ '\n' ∧ b64Chr i ≠ '-' := by
  decide

theorem b64d_b64e (bs : List Nat) : (∀ b ∈ bs, b < 256) → b64d (b64e bs) = bs := by
  induction bs using b64e.induct with
  | case1 => intro _; rfl
  | case2 b1 =>
    intro h
    have hb1 : b1 < 256 := h b1 (by simp)
    have h1 := b64Chr_spec (b1 / 4) (by omega)
    have h2 := b64Chr_spec (b1 % 4 * 16) (by omega)
    rw [b64e, b64d]
    rw [if_pos rfl, h1.1, h2.1]
    simp only [List.cons.injEq, and_true]
    omega
  | case3 b1 b2 =>
    intro h
    have hb1 : b1 < 256 := h b1 (by simp)
    have hb2 : b2 < 256 := h b2 (by simp)
    have h1 := b64Chr_spec (b1 / 4) (by omega)
    have h2 := b64Chr_spec (b1 % 4 * 16 + b2 / 16) (by omega)
    have h3 := b64Chr_spec (b2 % 16 * 4) (by omega)
    rw [b64e, b64d]
    rw [if_neg h3.2.1, if_pos rfl, h1.1, h2.1, h3.1]
    simp only [List.cons.injEq, and_true]
    refine ⟨by omega, by omega⟩
  | case4 b1 b2 b3 rest ih =>
    intro h
    have hb1 : b1 < 256 := h b1 (by simp)
    have hb2 : b2 < 256 := h b2 (by simp)
    have hb3 : b3 < 256 := h b3 (by simp)
    have htail : ∀ b ∈ rest, b < 256 := fun b hb => h b (by simp [hb])
    have h1 := b64Chr_spec (b1 / 4) (by omega)
    have h2 := b64Chr_spec (b1 % 4 * 16 + b2 / 16) (by omega)
    have h3 := b64Chr_spec (b2 % 16 * 4 + b3 / 64) (by omega)
    have h4 := b64Chr_spec (b3 % 64) (by omega)
    rw [b64e, b64d]
    rw [if_neg h3.2.1, if_neg h4.2.1, ih htail, h1.1, h2.1, h3.1, h4.1]
    simp only [List.cons.injEq, and_true]
    refine ⟨by omega, by omega, by omega⟩

theorem b64e_chars (bs : List Nat) : (∀ b ∈ bs, b < 256) →
    ∀ c ∈ b64e bs, c ≠ '\n' ∧ c ≠ '-' := by
  induction bs using b64e.induct with
  | case1 =>
    intro _ c hc
    simp [b64e] at hc
  | case2 b1 =>
    intro h c hc
    have hb1 : b1 < 256 := h b1 (by simp)
    have h1 := b64Chr_spec (b1 / 4) (by omega)
    have h2 := b64Chr_spec (b1 % 4 * 16) (by omega)
    rw [b64e] at hc
    simp only [List.mem_cons, List.not_mem_nil, or_false] at hc
    rcases hc with rfl | rfl | rfl | rfl
    · exact ⟨h1.2.2.1, h1.2.2.2⟩
    · exact ⟨h2.2.2.1, h2.2.2.2⟩
    · exact ⟨by decide, by decide⟩
    · exact ⟨by decide, by decide⟩
  | case3 b1 b2 =>
    intro h c hc
    have hb1 : b1 < 256 := h b1 (by simp)
    have hb2 : b2 < 256 := h b2 (by simp)
    have h1 := b64Chr_spec (b1 / 4) (by omega)
    have h2 := b64Chr_spec (b1 % 4 * 16 + b2 / 16) (by omega)
    have h3 := b64Chr_spec (b2 % 16 * 4) (by omega)
    rw [b64e] at hc
    simp only [List.mem_cons, List.not_mem_nil, or_false] at hc
    rcases hc with rfl | rfl | rfl | rfl
    · exact ⟨h1.2.2.1, h1.2.2.2⟩
    · exact ⟨h2.2.2.1, h2.2.2.2⟩
    · exact ⟨h3.2.2.1, h3.2.2.2⟩
    · exact ⟨by decide, by decide⟩
  | case4 b1 b2 b3 rest ih =>
    intro h c hc
    have hb1 : b1 < 256 := h b1 (by simp)
    have hb2 : b2 < 256 := h b2 (by simp)
    have hb3 : b3 < 256 := h b3 (by simp)
    have htail : ∀ b ∈ rest, b < 256 := fun b hb => h b (by simp [hb])
    have h1 := b64Chr_spec (b1 / 4) (by omega)
    have h2 := b64Chr_spec (b1 % 4 * 16 + b2 / 16) (by omega)
    have h3 := b64Chr_spec (b2 % 16 * 4 + b3 / 64) (by omega)
    have h4 := b64Chr_spec (b3 % 64) (by omega)
    rw [b64e] at hc
    simp only [List.mem_cons] at hc
    rcases hc with rfl | rfl | rfl | rfl | hc
    · exact ⟨h1.2.2.1, h1.2.2.2⟩
    · exact ⟨h2.2.2.1, h2.2.2.2⟩
    · exact ⟨h3.2.2.1, h3.2.2.2⟩
    · exact ⟨h4.2.2.1, h4.2.2.2⟩
    · exact ih htail c hc

theorem mem_wrap76 (s : List Char) : ∀ c ∈ wrap76 s, c ∈ s ∨ c = '\n' := by
  induction s using wrap76.induct with
  | case1 x hlt =>
    intro c hc
    rw [wrap76, if_pos hlt] at hc
    exact Or.inl hc
  | case2 x hlt ih =>
    intro c hc
    rw [wrap76, if_neg hlt] at hc
    rcases List.mem_append.mp hc with hc | hc
    · exact Or.inl (List.take_subset _ _ hc)
    · rcases List.mem_cons.mp hc with hc | hc
      · exact Or.inr hc
      · rcases ih c hc with hm | hm
        · exact Or.inl (List.drop_subset _ _ hm)
        · exact Or.inr hm

theorem stripNewlines_wrap76 (s : List Char) : (∀ c ∈ s, c ≠ '\n') →
    stripNewlines (wrap76 s) = s := by
  induction s using wrap76.induct with
  | case1 x hlt =>
    intro h
    rw [wrap76, if_pos hlt, stripNewlines, List.filter_eq_self]
    intro c hc
    simpa using h c hc
  | case2 x hlt ih =>
    intro h
    rw [wrap76, if_neg hlt, stripNewlines, List.filter_append]
    have h1 : List.filter (fun c => !(c == '\n')) (List.take 76 x) = List.take 76 x :=
      List.filter_eq_self.mpr (fun c hc => by simpa using h c (List.take_subset _ _ hc))
    have h2 : List.filter (fun c => !(c == '\n')) ('\n' :: wrap76 (List.drop 76 x)) =
        List.filter (fun c => !(c == '\n')) (wrap76 (List.drop 76 x)) := by
      rw [List.filter_cons]
      simp
    rw [h1, h2]
    have h3 := ih (fun c hc => h c (List.drop_subset _ _ hc))
    rw [stripNewlines] at h3
    rw [h3, List.take_append_drop]

/-! ### Counting part delimiters -/

theorem countLine_append (t : List Char) (l₁ l₂ : List (List Char)) :
    countLine t (l₁ ++ l₂) = countLine t l₁ + countLine t l₂ := by
  induction l₁ with
  | nil => simp [countLine]
  | cons a as ih =>
    rw [List.cons_append, countLine, countLine, ih]
    omega

theorem countLine_cons_self (t : List Char) (ls : List (List Char)) :
    countLine t (t :: ls) = countLine t ls + 1 := by
  simp [countLine]
  omega

theorem countLine_cons_ne {t l : List Char} (hne : l ≠ t) (ls : List (List Char)) :
    countLine t (l :: ls) = countLine t ls := by
  simp [countLine, hne]

theorem delim_eq_cons (suffix : List Char) :
    delim suffix = '-' :: '-' :: ("mixed_".toList ++ suffix) := rfl

theorem cons_ne_delim {c : Char} (hc : c ≠ '-') (l suffix : List Char) :
    c :: l ≠ delim suffix := by
  rw [delim_eq_cons]
  intro he
  injection he with h1 _
  exact hc h1

theorem nil_ne_delim (suffix : List Char) : ([] : List Char) ≠ delim suffix := by
  rw [delim_eq_cons]
  intro he
  exact List.noConfusion he

theorem ne_delim_of_eq_cons {l : List Char} {c : Char} {rest suffix : List Char}
    (hl : l = c :: rest) (hc : c ≠ '-') : l ≠ delim suffix := by
  rw [hl]
  exact cons_ne_delim hc _ _

theorem wrapLine_ne_delim (bs : List Nat) (suffix : List Char)
    (h : ∀ b ∈ bs, b < 256) : wrap76 (b64e bs) ≠ delim suffix := by
  intro he
  have hd : '-' ∈ wrap76 (b64e bs) := by
    rw [he, delim_eq_cons]
    exact List.mem_cons_self _ _
  rcases mem_wrap76 _ '-' hd with hm | hm
  · exact (b64e_chars bs h '-' hm).2 rfl
  · exact absurd hm (by decide)

theorem closing_ne_delim (suffix : List Char) :
    delim suffix ++ "--".toList ≠ delim suffix := by
  intro he
  have hlen := congrArg List.length he
  rw [List.length_append, show ("--".toList).length = 2 from rfl] at hlen
  omega

theorem countLine_attLines (fsys : List Char → List Nat) (suffix : List Char) (att : AttRef)
    (h : ∀ b ∈ fsys att.path, b < 256) :
    countLine (delim suffix) (attLines fsys suffix att) = 1 := by
  rw [attLines, countLine_cons_self]
  rw [countLine_cons_ne (ne_delim_of_eq_cons rfl (by decide) :
    "Content-Type: ".toList ++ mimeOf att.filename ++ "; name=\"".toList ++
      att.filename ++ ['"'] ≠ delim suffix)]
  rw [countLine_cons_ne (ne_delim_of_eq_cons rfl (by decide) :
    "Content-Transfer-Encoding: base64".toList ≠ delim suffix)]
  rw [countLine_cons_ne (ne_delim_of_eq_cons rfl (by decide) :
    "Content-Disposition: attachment; filename=\"".toList ++
      att.filename ++ ['"'] ≠ delim suffix)]
  rw [countLine_cons_ne (nil_ne_delim _)]
  rw [countLine_cons_ne (wrapLine_ne_delim _ _ h)]
  rw [countLine_cons_ne (nil_ne_delim _)]
  rfl

theorem countLine_flatMap (fsys : List Char → List Nat) (suffix : List Char) :
    ∀ atts : List AttRef, (∀ att ∈ atts, ∀ b ∈ fsys att.path, b < 256) →
    countLine (delim suffix) (atts.flatMap (attLines fsys suffix)) = atts.length := by
  intro atts
  induction atts with
  | nil =>
    intro _
    simp [countLine]
  | cons a as ih =>
    intro h
    rw [List.flatMap_cons, countLine_append,
      countLine_attLines fsys suffix a (h a (by simp)),
      ih (fun att hatt => h att (by simp [hatt]))]
    simp [List.length_cons]
    omega

/-- C3: for every message built by `buildRawMessage`, with zero attachments
the assembled message is the single-part text/plain entity; with one or more
attachments it is a multipart/mixed entity whose part-delimiter count equals
the number of attachments plus one, with the text body as the first part; and
base64-decoding each attachment part's payload reproduces that attachment's
bytes exactly.  The boundary suffix is assumed not to collide with the body
text, and file bytes are bytes (< 256). -/
theorem buildRawMessage_parts (fsys : List Char → List Nat) (suffix : List Char)
    (o : SendOpts) (htext : o.text ≠ delim suffix)
    (hbytes : ∀ att ∈ o.attachments, ∀ b ∈ fsys att.path, b < 256) :
    MessageParts fsys suffix o := by
  unfold MessageParts
  refine ⟨?_, ?_, ?_⟩
  · intro hempty
    simp [buildLines, hempty]
  · intro hne
    have hnemp : o.attachments.isEmpty = false := by
      cases hcase : o.attachments.isEmpty
      · rfl
      · exact absurd (List.isEmpty_iff.mp hcase) hne
    have hH : countLine (delim suffix) ["From: ".toList ++ o.fromAddr,
        "To: ".toList ++ o.toAddr, "Subject: ".toList ++ o.subject,
        "MIME-Version: 1.0".toList] = 0 := by
      rw [countLine_cons_ne (ne_delim_of_eq_cons rfl (by decide) :
        "From: ".toList ++ o.fromAddr ≠ delim suffix)]
      rw [countLine_cons_ne (ne_delim_of_eq_cons rfl (by decide) :
        "To: ".toList ++ o.toAddr ≠ delim suffix)]
      rw [countLine_cons_ne (ne_delim_of_eq_cons rfl (by decide) :
        "Subject: ".toList ++ o.subject ≠ delim suffix)]
      rw [countLine_cons_ne (ne_delim_of_eq_cons rfl (by decide) :
        "MIME-Version: 1.0".toList ≠ delim suffix)]
      rfl
    have hB : countLine (delim suffix)
        ["Content-Type: multipart/mixed; boundary=\"".toList ++ boundaryOf suffix ++ ['"'],
         [], delim suffix, "Content-Type: text/plain; charset=\"utf-8\"".toList,
         [], o.text, []] = 1 := by
      rw [countLine_cons_ne (ne_delim_of_eq_cons rfl (by decide) :
        "Content-Type: multipart/mixed; boundary=\"".toList ++ boundaryOf suffix ++ ['"'] ≠
          delim suffix)]
      rw [countLine_cons_ne (nil_ne_delim suffix)]
      rw [countLine_cons_self]
      rw [countLine_cons_ne (ne_delim_of_eq_cons rfl (by decide) :
        "Content-Type: text/plain; charset=\"utf-8\"".toList ≠ delim suffix)]
      rw [countLine_cons_ne (nil_ne_delim suffix)]
      rw [countLine_cons_ne htext]
      rw [countLine_cons_ne (nil_ne_delim suffix)]
      rfl
    have hF := countLine_flatMap fsys suffix o.attachments hbytes
    have hC : countLine (delim suffix) [delim suffix ++ "--".toList] = 0 := by
      rw [countLine_cons_ne (closing_ne_delim suffix)]
      rfl
    constructor
    · simp only [buildLines]
      rw [hnemp]
      simp only [Bool.false_eq_true, if_false]
      rw [countLine_append, countLine_append, countLine_append, hH, hB, hF, hC]
      omega
    · refine ⟨["From: ".toList ++ o.fromAddr, "To: ".toList ++ o.toAddr,
        "Subject: ".toList ++ o.subject, "MIME-Version: 1.0".toList,
        "Content-Type: multipart/mixed; boundary=\"".toList ++ boundaryOf suffix ++ ['"'],
        []],
        o.attachments.flatMap (attLines fsys suffix) ++ [delim suffix ++ "--".toList],
        ?_, ?_⟩
      · simp only [buildLines]
        rw [hnemp]
        simp only [Bool.false_eq_true, if_false]
        simp [List.append_assoc]
      · intro hmem
        simp only [List.mem_cons, List.not_mem_nil, or_false] at hmem
        rcases hmem with h | h | h | h | h | h
        · exact (ne_delim_of_eq_cons rfl (by decide) :
            "From: ".toList ++ o.fromAddr ≠ delim suffix) h.symm
        · exact (ne_delim_of_eq_cons rfl (by decide) :
            "To: ".toList ++ o.toAddr ≠ delim suffix) h.symm
        · exact (ne_delim_of_eq_cons rfl (by decide) :
            "Subject: ".toList ++ o.subject ≠ delim suffix) h.symm
        · exact (ne_delim_of_eq_cons rfl (by decide) :
            "MIME-Version: 1.0".toList ≠ delim suffix) h.symm
        · exact (ne_delim_of_eq_cons rfl (by decide) :
            "Content-Type: multipart/mixed; boundary=\"".toList ++ boundaryOf suffix ++ ['"'] ≠
              delim suffix) h.symm
        · exact nil_ne_delim suffix h.symm
  · intro att hatt
    have hnemp : o.attachments.isEmpty = false := by
      have hne : o.attachments ≠ [] := List.ne_nil_of_mem hatt
      cases hcase : o.attachments.isEmpty
      · rfl
      · exact absurd (List.isEmpty_iff.mp hcase) hne
    constructor
    · simp only [buildLines]
      rw [hnemp]
      simp only [Bool.false_eq_true, if_false]
      refine List.mem_append.mpr (Or.inl ?_)
      refine List.mem_append.mpr (Or.inr ?_)
      refine List.mem_flatMap.mpr ⟨att, hatt, ?_⟩
      rw [attLines]
      simp
    · have hb := hbytes att hatt
      rw [stripNewlines_wrap76 _ (fun c hc => (b64e_chars _ hb c hc).1)]
      exact b64d_b64e _ hb

/-- C3 witness: a concrete one-attachment message (bytes `hi`, boundary suffix
`abc`), with both hypotheses discharged by computation. -/
theorem buildRawMessage_parts_witness :
    (SendOpts.text ⟨"a@b".toList, "c@d".toList, "S".toList, "Body".toList,
        [⟨"r.csv".toList, "p".toList⟩]⟩ ≠ delim "abc".toList) ∧
    MessageParts (fun _ => [104, 105]) "abc".toList
      ⟨"a@b".toList, "c@d".toList, "S".toList, "Body".toList,
       [⟨"r.csv".toList, "p".toList⟩]⟩ :=
  ⟨by decide, buildRawMessage_parts (fun _ => [104, 105]) "abc".toList
    ⟨"a@b".toList, "c@d".toList, "S".toList, "Body".toList,
     [⟨"r.csv".toList, "p".toList⟩]⟩ (by decide) (by decide)⟩

end Domo
